import Mathlib

/-
Verification development for the DocuMind document-analysis backend.

The embedding covers the document ingestion and prompt-assembly pipeline:

  - `chunk_text` (src/users/routers/auth.py, lines 87-99): the overlapping
    text chunker.  The Python loop `while start < len(text)` is embedded with
    an explicit fuel parameter; `none` means the fuel bound was reached before
    the loop finished, so `(forall fuel, ... = none)` expresses that the loop
    never terminates.  Python slicing `text[start:end]` is embedded by
    `pySlice` with Python's index-clamping semantics over `Int` indices,
    since `start` is an unbounded Python int in the source.
  - `extract_text_from_file` (src/api/index.py, lines 77-159): the
    format-dispatching extractor.  The PDF/DOCX/DXF branches call external
    parsing libraries, which are taken as parameters of the definition; the
    plain-text branch (UTF-8 then Latin-1 decoding) is embedded in full.
  - the prompt templates of `analyze_document` (auth.py lines 201-228 and
    index.py lines 1260-1269) and `analyze_document_stream` (auth.py lines
    272-283).
  - the blocking inference-call error mapping of both `analyze_document`
    handlers (auth.py lines 231-241, index.py lines 1271-1280).
  - the streaming relay loop of `analyze_document_stream` (auth.py lines
    285-301), with `json.loads` of the standard library modelled for
    one-line JSON objects.

Texts are `List Char`, raw file bytes are `List (Fin 256)`.
-/

namespace DocuMind

set_option maxRecDepth 100000

/-- Python slicing `s[a:b]` on a list of characters, with Python's semantics
for `Int` indices: negative indices count from the end, and the resulting
bounds are clamped into `[0, len(s)]`. -/
def pySlice (s : List Char) (a b : Int) : List Char :=
  let n : Int := s.length
  let a1 : Int := if a < 0 then n + a else a
  let b1 : Int := if b < 0 then n + b else b
  let a2 : Nat := (min (max a1 0) n).toNat
  let b2 : Nat := (min (max b1 0) n).toNat
  (s.take b2).drop a2

/-- The loop of `chunk_text` (auth.py lines 92-99):
`while start < len(text): end = start + chunk_size; chunks.append(text[start:end]); start = end - overlap`.
`fuel` bounds the number of iterations; `none` means the loop was still
running when the fuel ran out. -/
def chunkTextAux (s : List Char) (cs ov : Int) : Nat → Int → Option (List (List Char))
  | fuel, start =>
    if start < (s.length : Int) then
      match fuel with
      | 0 => none
      | f + 1 =>
        match chunkTextAux s cs ov f (start + cs - ov) with
        | none => none
        | some rest => some (pySlice s start (start + cs) :: rest)
    else some []

/-- `chunk_text` (auth.py lines 87-99): returns `[text]` when the text fits in
one chunk, otherwise runs the chunking loop (with the given fuel bound). -/
def chunk_text (fuel : Nat) (text : List Char) (chunkSize overlap : Int) :
    Option (List (List Char)) :=
  if (text.length : Int) ≤ chunkSize then some [text]
  else chunkTextAux text chunkSize overlap fuel 0

/-- Concatenation of the chunks with the first `k` characters dropped from
every chunk. -/
def stitchTail (k : Nat) (L : List (List Char)) : List Char :=
  (L.map (List.drop k)).flatten

/-- Stitching a chunk list back together: the first chunk in full, every
later chunk with its first `k` characters removed. -/
def stitch (k : Nat) (L : List (List Char)) : List Char :=
  match L with
  | [] => []
  | c :: rest => c ++ stitchTail k rest

/-- Chunks `a` and `b` (consecutive in a chunk list) overlap by exactly `k`
characters: the last `k` characters of `a` exist and equal the first `k`
characters of `b`, which also exist. -/
def overlapsBy (a b : List Char) (k : Nat) : Prop :=
  k ≤ a.length ∧ k ≤ b.length ∧ a.drop (a.length - k) = b.take k

instance decOverlapsBy (a b : List Char) (k : Nat) : Decidable (overlapsBy a b k) := by
  unfold overlapsBy
  infer_instance

/-- Python `str.split(sep)` for a single-character separator. -/
def splitOnChar (sep : Char) : List Char → List (List Char)
  | [] => [[]]
  | c :: rest =>
    let r := splitOnChar sep rest
    if c = sep then [] :: r
    else
      match r with
      | [] => [[c]]
      | h :: t => (c :: h) :: t

/-- The extension computation of `extract_text_from_file` (index.py line 79):
`filename.lower().split('.')[-1] if '.' in filename else ''`.  Python's
`str.lower` is embedded per character by `Char.toLower`. -/
def extOf (filename : List Char) : List Char :=
  if ('.') ∈ filename then (splitOnChar '.' (filename.map Char.toLower)).getLastD []
  else []

/-- Strict UTF-8 decoding of a byte sequence to Unicode code points, as
performed by Python's `bytes.decode('utf-8')`: continuation bytes must be
`80..BF`, overlong encodings, surrogate code points `D800..DFFF`, lead bytes
`F5..FF` and code points above `10FFFF` are rejected, as are truncated
sequences.  `none` is a `UnicodeDecodeError`. -/
def utf8DecodeAux : List Nat → Option (List Nat)
  | [] => some []
  | b :: rest =>
    if b < 0x80 then (utf8DecodeAux rest).map (fun r => b :: r)
    else if b < 0xC2 then none
    else if b < 0xE0 then
      match rest with
      | b1 :: rest1 =>
        if 0x80 ≤ b1 ∧ b1 < 0xC0 then
          (utf8DecodeAux rest1).map (fun r => ((b - 0xC0) * 0x40 + (b1 - 0x80)) :: r)
        else none
      | [] => none
    else if b < 0xF0 then
      match rest with
      | b1 :: b2 :: rest2 =>
        if (0x80 ≤ b1 ∧ b1 < 0xC0) ∧ (0x80 ≤ b2 ∧ b2 < 0xC0) then
          let cp := (b - 0xE0) * 0x1000 + (b1 - 0x80) * 0x40 + (b2 - 0x80)
          if 0x800 ≤ cp ∧ ¬ (0xD800 ≤ cp ∧ cp ≤ 0xDFFF) then
            (utf8DecodeAux rest2).map (fun r => cp :: r)
          else none
        else none
      | _ => none
    else if b < 0xF5 then
      match rest with
      | b1 :: b2 :: b3 :: rest3 =>
        if (0x80 ≤ b1 ∧ b1 < 0xC0) ∧ (0x80 ≤ b2 ∧ b2 < 0xC0) ∧ (0x80 ≤ b3 ∧ b3 < 0xC0) then
          let cp := (b - 0xF0) * 0x40000 + (b1 - 0x80) * 0x1000 + (b2 - 0x80) * 0x40 + (b3 - 0x80)
          if 0x10000 ≤ cp ∧ cp ≤ 0x10FFFF then
            (utf8DecodeAux rest3).map (fun r => cp :: r)
          else none
        else none
      | _ => none
    else none

/-- `content.decode('utf-8')` (index.py line 154): `none` is a
`UnicodeDecodeError`. -/
def utf8Decode (bs : List (Fin 256)) : Option (List Char) :=
  (utf8DecodeAux (bs.map Fin.val)).map (fun l => l.map Char.ofNat)

/-- `content.decode('latin-1')`: every byte value maps to the code point of
the same value, so this decoding is total. -/
def latin1Decode (bs : List (Fin 256)) : List Char :=
  bs.map (fun b => Char.ofNat b.val)

/-- The Latin-1 decoding attempt of index.py line 157, with the `Option`
shape of the surrounding `try`/`except`: the decode itself never fails. -/
def latin1DecodeOpt (bs : List (Fin 256)) : Option (List Char) :=
  some (latin1Decode bs)

/-- Error classes of the extractor, following the spec's taxonomy; in the
source each is an `HTTPException(400, ...)` with a distinguishing message. -/
inductive ExtractError
  | unsupportedFormat
  | parseFailure
  | unreadableFile
deriving DecidableEq, Repr

/-- `extract_text_from_file` (index.py lines 77-159).  The PDF, Word and DXF
branches call external parsing libraries; these are passed in as the support
flags `pdfSupport`/`docxSupport`/`dxfSupport` (the `*_SUPPORT` globals) and
the parse functions `parsePdf`/`parseDocx`/`parseDxf`, where `none` stands
for the library raising an exception (mapped to a parse-failure error by the
source).  The plain-text branch is embedded in full: UTF-8 first, Latin-1 on
`UnicodeDecodeError`, and the unreadable-file error if both attempts fail. -/
def extract_text_from_file
    (pdfSupport docxSupport dxfSupport : Bool)
    (parsePdf parseDocx parseDxf : List (Fin 256) → Option (List Char))
    (content : List (Fin 256)) (filename : List Char) :
    Except ExtractError (List Char) :=
  let ext := extOf filename
  if ext = ("pdf".toList) then
    if pdfSupport = false then Except.error ExtractError.unsupportedFormat
    else
      match parsePdf content with
      | some t => Except.ok t
      | none => Except.error ExtractError.parseFailure
  else if ext = ("docx".toList) ∨ ext = ("doc".toList) then
    if docxSupport = false then Except.error ExtractError.unsupportedFormat
    else
      match parseDocx content with
      | some t => Except.ok t
      | none => Except.error ExtractError.parseFailure
  else if ext = ("dxf".toList) then
    if dxfSupport = false then Except.error ExtractError.unsupportedFormat
    else
      match parseDxf content with
      | some t => Except.ok t
      | none => Except.error ExtractError.parseFailure
  else
    match utf8Decode content with
    | some t => Except.ok t
    | none =>
      match latin1DecodeOpt content with
      | some t => Except.ok t
      | none => Except.error ExtractError.unreadableFile

/-- The single-chunk prompt template of `analyze_document` (auth.py lines
205-214), also used verbatim by `analyze_document_stream` (lines 274-283). -/
def singlePrompt (instructions filename chunk : List Char) : List Char :=
  ("You are an expert document analyst. Analyze the following document according to the user's instructions. Be thorough and detailed.\n\nINSTRUCTIONS: ".toList)
  ++ instructions
  ++ ("\n\nDOCUMENT (".toList)
  ++ filename
  ++ ("):\n---\n".toList)
  ++ chunk
  ++ ("\n---\n\nProvide your analysis based on the instructions above.".toList)

/-- The multi-chunk prompt template of `analyze_document` (auth.py lines
217-228); `n` is `len(chunks)` and `chunk` is `chunks[0]`. -/
def multiPrompt (instructions filename : List Char) (n : Nat) (chunk : List Char) : List Char :=
  ("You are an expert document analyst. This is a large document split into ".toList)
  ++ (Nat.repr n).toList
  ++ (" parts. Analyze it according to the user's instructions.\n\nINSTRUCTIONS: ".toList)
  ++ instructions
  ++ ("\n\nDOCUMENT (".toList)
  ++ filename
  ++ (") - Part 1 of ".toList)
  ++ (Nat.repr n).toList
  ++ (":\n---\n".toList)
  ++ chunk
  ++ ("\n---\n\nNote: This document continues. Focus on extracting key information relevant to the instructions.\n\nProvide your analysis based on the instructions above.".toList)

/-- Prompt assembly of the blocking `analyze_document` handler (auth.py lines
200-228): it chunks the extracted text with `chunk_size=12000` (and the
default `overlap=500`), then selects the template by `len(chunks) == 1`;
both templates embed `chunks[0]`.  The fuel given to the chunking loop is
the text length, which is enough iterations for these parameters. -/
def analyze_document_prompt (instructions filename text : List Char) : List Char :=
  let chunks := (chunk_text text.length text 12000 500).getD []
  if chunks.length = 1 then singlePrompt instructions filename (chunks.getD 0 [])
  else multiPrompt instructions filename chunks.length (chunks.getD 0 [])

/-- Prompt assembly of the streaming `analyze_document_stream` handler
(auth.py lines 272-283): the text is chunked the same way, but the prompt is
always the single-chunk template applied to `chunks[0]`. -/
def analyze_document_stream_prompt (instructions filename text : List Char) : List Char :=
  let chunks := (chunk_text text.length text 12000 500).getD []
  singlePrompt instructions filename (chunks.getD 0 [])

/-- Prompt assembly of the `analyze_document` handler of index.py (lines
1260-1269): no chunking, the extracted text truncated to 12000 characters is
embedded in a single fixed template. -/
def analyze_document_api_prompt (instructions filename text : List Char) : List Char :=
  ("You are an expert document analyst. Analyze the following document according to the user's instructions.\n\nINSTRUCTIONS: ".toList)
  ++ instructions
  ++ ("\n\nDOCUMENT (".toList)
  ++ filename
  ++ ("):\n---\n".toList)
  ++ (text.take 12000)
  ++ ("\n---\n\nProvide your analysis.".toList)

/-- `p` contains `a`, `b` and `c` as substrings, in that relative order. -/
def containsInOrder3 (p a b c : List Char) : Prop :=
  ∃ u1 u2 u3 u4, p = u1 ++ a ++ u2 ++ b ++ u3 ++ c ++ u4

/-- Outcome of the awaited `httpx` POST to the inference server: the call
returns a payload, raises `httpx.TimeoutException`, or raises some other
exception; `msg` is `str(e)`. -/
inductive CallOutcome
  | success (payload : List Char)
  | raiseTimeout (msg : List Char)
  | raiseOther (msg : List Char)
deriving DecidableEq, Repr

/-- Error mapping of the blocking inference call in auth.py's
`analyze_document` (lines 231-241): `except httpx.TimeoutException` gives
HTTP 504 with a fixed message, then `except Exception as e` gives HTTP 500
with `"AI error: " + str(e)`. -/
def analyze_document_call (o : CallOutcome) : Except (Nat × List Char) (List Char) :=
  match o with
  | CallOutcome.success r => Except.ok r
  | CallOutcome.raiseTimeout _ =>
      Except.error (504, ("AI model timeout - try a shorter document".toList))
  | CallOutcome.raiseOther m =>
      Except.error (500, ("AI error: ".toList ++ m))

/-- Error mapping of the blocking inference call in index.py's
`analyze_document` (lines 1271-1280): the single `except Exception as e`
handler catches every exception — `httpx.TimeoutException` is a subclass of
`Exception`, so a timeout takes the same branch — and gives HTTP 500 with
`"AI service error: " + str(e)`. -/
def analyze_document_api_call (o : CallOutcome) : Except (Nat × List Char) (List Char) :=
  match o with
  | CallOutcome.success r => Except.ok r
  | CallOutcome.raiseTimeout m =>
      Except.error (500, ("AI service error: ".toList ++ m))
  | CallOutcome.raiseOther m =>
      Except.error (500, ("AI service error: ".toList ++ m))

/-- The HTTP status code of a failed call, `none` on success. -/
def errStatus (r : Except (Nat × List Char) (List Char)) : Option Nat :=
  match r with
  | Except.error (s, _) => some s
  | Except.ok _ => none

/-- JSON values appearing in the newline-delimited objects streamed by the
inference server: strings, booleans and null. -/
inductive JVal
  | str (s : List Char)
  | bool (b : Bool)
  | null
deriving DecidableEq, Repr

/-- Python truthiness of a JSON value, as tested by `if data.get("done"):`. -/
def truthy : JVal → Bool
  | JVal.str s => !s.isEmpty
  | JVal.bool b => b
  | JVal.null => false

/-- Events relayed to the SSE consumer by the streaming handler: a text
fragment (serialized as `data: {"text": fragment}`) or the terminal done
event (serialized as `data: {"done": true}`). -/
inductive Event
  | text (v : JVal)
  | done
deriving DecidableEq, Repr

/-- Whitespace skipping of the JSON parser. -/
def skipWs : List Char → List Char
  | [] => []
  | c :: rest =>
    if c = ' ' ∨ c = '\t' ∨ c = '\n' ∨ c = '\r' then skipWs rest
    else c :: rest

/-- Body of a JSON string literal after the opening quote, up to the closing
quote; escape sequences are outside the modelled fragment. -/
def parseStrBody : List Char → Option (List Char × List Char)
  | [] => none
  | c :: rest =>
    if c = '\"' then some ([], rest)
    else if c = '\\' then none
    else (parseStrBody rest).map (fun p => (c :: p.1, p.2))

/-- A JSON scalar value: string, true, false or null. -/
def parseJVal (s : List Char) : Option (JVal × List Char) :=
  match skipWs s with
  | '\"' :: rest => (parseStrBody rest).map (fun p => (JVal.str p.1, p.2))
  | 't' :: 'r' :: 'u' :: 'e' :: rest => some (JVal.bool true, rest)
  | 'f' :: 'a' :: 'l' :: 's' :: 'e' :: rest => some (JVal.bool false, rest)
  | 'n' :: 'u' :: 'l' :: 'l' :: rest => some (JVal.null, rest)
  | _ => none

/-- The members of a JSON object after the opening brace: `"key": value`
pairs separated by commas, ended by the closing brace. -/
def parseMembers : Nat → List Char → Option (List (List Char × JVal) × List Char)
  | 0, _ => none
  | fuel + 1, s =>
    match skipWs s with
    | '\"' :: rest =>
      match parseStrBody rest with
      | none => none
      | some (key, rest2) =>
        match skipWs rest2 with
        | ':' :: rest3 =>
          match parseJVal rest3 with
          | none => none
          | some (v, rest4) =>
            match skipWs rest4 with
            | ',' :: rest5 =>
              (parseMembers fuel rest5).map (fun p => ((key, v) :: p.1, p.2))
            | c :: rest5 =>
              if c = Char.ofNat 125 then some ([(key, v)], rest5) else none
            | [] => none
        | _ => none
    | _ => none

/-- Modelled from the spec: `json.loads` of the Python standard library (not
part of src/), restricted to what the streaming protocol uses — a single
line holding one JSON object with string keys and string, boolean or null
values ("each line independently parses as JSON with optional `response`
(string fragment) and optional `done` (bool) fields"); `none` is a
`json.JSONDecodeError`. -/
def jsonLineParse (s : List Char) : Option (List (List Char × JVal)) :=
  match skipWs s with
  | c :: rest =>
    if c = Char.ofNat 123 then
      match skipWs rest with
      | c2 :: rest2 =>
        if c2 = Char.ofNat 125 then (if skipWs rest2 = [] then some [] else none)
        else
          match parseMembers (rest.length + 1) rest with
          | some (obj, rem) => if skipWs rem = [] then some obj else none
          | none => none
      | [] => none
    else none
  | [] => none

/-- Key lookup in a parsed JSON object, as `data["response"]`/`data.get`. -/
def lookupKey (obj : List (List Char × JVal)) (k : List Char) : Option JVal :=
  match obj with
  | [] => none
  | (k', v) :: rest => if k' = k then some v else lookupKey rest k

/-- One iteration of the streaming relay loop of `analyze_document_stream`
(auth.py lines 292-301): skip the line if it is empty (`if line:`), skip it
if it fails to parse as JSON (`except json.JSONDecodeError: continue`),
otherwise emit a text event when a `response` member is present, followed by
a done event when a `done` member with a truthy value is present. -/
def relayLine (line : List Char) : List Event :=
  if line.isEmpty then []
  else
    match jsonLineParse line with
    | none => []
    | some data =>
      (match lookupKey data ("response".toList) with
       | some v => [Event.text v]
       | none => []) ++
      (match lookupKey data ("done".toList) with
       | some v => if truthy v then [Event.done] else []
       | none => [])

/-- The full event sequence the streaming relay produces for a sequence of
upstream lines (the `async for line in response.aiter_lines()` loop). -/
def relay (lines : List (List Char)) : List Event :=
  lines.flatMap relayLine

lemma chunkTextAux_stop {s : List Char} {cs ov start : Int} {fuel : Nat}
    (h : ¬ start < (s.length : Int)) :
    chunkTextAux s cs ov fuel start = some [] := by
  rw [chunkTextAux.eq_def]
  simp [h]

lemma chunkTextAux_succ {s : List Char} {cs ov start : Int} {f : Nat}
    (h : start < (s.length : Int)) :
    chunkTextAux s cs ov (f + 1) start =
      match chunkTextAux s cs ov f (start + cs - ov) with
      | none => none
      | some rest => some (pySlice s start (start + cs) :: rest) := by
  rw [chunkTextAux.eq_def]
  simp [h]

lemma chunkTextAux_zero {s : List Char} {cs ov start : Int}
    (h : start < (s.length : Int)) :
    chunkTextAux s cs ov 0 start = none := by
  rw [chunkTextAux.eq_def]
  simp [h]

lemma pySlice_eq (s : List Char) (a b : Int) (ha : 0 ≤ a) (hb : 0 ≤ b) :
    pySlice s a b = (s.drop a.toNat).take (b.toNat - a.toNat) := by
  simp only [pySlice]
  rw [if_neg (show ¬ a < 0 by omega), if_neg (show ¬ b < 0 by omega)]
  rw [List.drop_take]
  by_cases hle : a.toNat ≤ s.length
  · have ha2 : (min (max a 0) ((s.length : Nat) : Int)).toNat = a.toNat := by omega
    rw [ha2, List.take_eq_take]
    simp only [List.length_drop, List.length_take]
    omega
  · have ha2 : (min (max a 0) ((s.length : Nat) : Int)).toNat = s.length := by omega
    have h1 : s.drop a.toNat = [] := by
      rw [List.drop_eq_nil_iff]; omega
    rw [ha2, h1, List.drop_length]
    simp

/-- Main invariant of the chunking loop, by induction on the fuel: with
positive advancement (`0 < ov < cs`) and enough fuel, the loop started at
offset `start ≥ 0` terminates and returns a chunk list `L` such that: chunk
`i` of `L` is the window of width `cs` of the text at offset
`start + i*(cs - ov)`; every produced chunk starts strictly inside the text;
`L` is empty exactly when the loop condition fails at entry; and both
stitching invariants hold. -/
lemma chunkTextAux_spec (fuel : Nat) :
    ∀ (s : List Char) (cs ov start : Int), 0 < ov → ov < cs → 0 ≤ start →
    (s.length : Int) ≤ start + fuel * (cs - ov) →
    ∃ L, chunkTextAux s cs ov fuel start = some L ∧
      (∀ i : Nat, i < L.length →
        L.getD i [] = (s.drop (start + i * (cs - ov)).toNat).take cs.toNat) ∧
      (∀ i : Nat, i < L.length → start + i * (cs - ov) < (s.length : Int)) ∧
      (L = [] ↔ (s.length : Int) ≤ start) ∧
      stitchTail ov.toNat L = s.drop (start + ov).toNat ∧
      stitch ov.toNat L = s.drop start.toNat := by
  induction fuel with
  | zero =>
    intro s cs ov start h1 h2 h3 h4
    simp only [Nat.cast_zero, zero_mul, add_zero] at h4
    have hge : ¬ start < (s.length : Int) := by omega
    refine ⟨[], chunkTextAux_stop hge, ?_, ?_, ?_, ?_, ?_⟩
    · intro i hi; simp at hi
    · intro i hi; simp at hi
    · simp; omega
    · show stitchTail ov.toNat [] = _
      have : s.drop (start + ov).toNat = [] := by
        rw [List.drop_eq_nil_iff]; omega
      simp [stitchTail, this]
    · show stitch ov.toNat [] = _
      have : s.drop start.toNat = [] := by
        rw [List.drop_eq_nil_iff]; omega
      simp [stitch, this]
  | succ f ih =>
    intro s cs ov start h1 h2 h3 h4
    by_cases hlt : start < (s.length : Int)
    · have hcast : ((f + 1 : Nat) : Int) * (cs - ov) = (f : Int) * (cs - ov) + (cs - ov) := by
        push_cast; ring
      have h4' : (s.length : Int) ≤ (start + cs - ov) + f * (cs - ov) := by
        linarith [h4, hcast]
      obtain ⟨L', hEq', hGet', hPos', hNil', hTail', hStitch'⟩ :=
        ih s cs ov (start + cs - ov) h1 h2 (by omega) h4'
      have hc : pySlice s start (start + cs) =
          (s.drop start.toNat).take cs.toNat := by
        rw [pySlice_eq s start (start + cs) h3 (by omega)]
        congr 1
        omega
      refine ⟨pySlice s start (start + cs) :: L', ?_, ?_, ?_, ?_, ?_, ?_⟩
      · rw [chunkTextAux_succ hlt, hEq']
      · intro i hi
        cases i with
        | zero =>
          simp only [List.getD_cons_zero, Nat.cast_zero, zero_mul, add_zero]
          exact hc
        | succ j =>
          have hj : j < L'.length := by simpa using hi
          have hrw : start + ((j + 1 : Nat) : Int) * (cs - ov) =
              (start + cs - ov) + (j : Nat) * (cs - ov) := by push_cast; ring
          simp only [List.getD_cons_succ]
          rw [hGet' j hj, ← hrw]
      · intro i hi
        cases i with
        | zero =>
          simpa using hlt
        | succ j =>
          have hj : j < L'.length := by simpa using hi
          have hrw : start + ((j + 1 : Nat) : Int) * (cs - ov) =
              (start + cs - ov) + (j : Nat) * (cs - ov) := by push_cast; ring
          rw [hrw]
          exact hPos' j hj
      · constructor
        · intro h; simp at h
        · intro h; omega
      · show stitchTail ov.toNat (pySlice s start (start + cs) :: L') = _
        have hTail2 : stitchTail ov.toNat L' = s.drop (start + cs).toNat := by
          rw [hTail', show (start + cs - ov + ov).toNat = (start + cs).toNat from by omega]
        have hdropc : (pySlice s start (start + cs)).drop ov.toNat =
            (s.drop (start + ov).toNat).take (cs.toNat - ov.toNat) := by
          rw [hc, List.drop_take, List.drop_drop,
            show start.toNat + ov.toNat = (start + ov).toNat from by omega]
        have hsplit : s.drop (start + cs).toNat =
            (s.drop (start + ov).toNat).drop (cs.toNat - ov.toNat) := by
          rw [List.drop_drop,
            show (start + ov).toNat + (cs.toNat - ov.toNat) = (start + cs).toNat from by omega]
        simp only [stitchTail, List.map_cons, List.flatten_cons]
        rw [show (L'.map (List.drop ov.toNat)).flatten = stitchTail ov.toNat L' from rfl]
        rw [hTail2, hdropc, hsplit, List.take_append_drop]
      · show stitch ov.toNat (pySlice s start (start + cs) :: L') = _
        have hTail2 : stitchTail ov.toNat L' = s.drop (start + cs).toNat := by
          rw [hTail', show (start + cs - ov + ov).toNat = (start + cs).toNat from by omega]
        have hsplit : s.drop (start + cs).toNat =
            (s.drop start.toNat).drop cs.toNat := by
          rw [List.drop_drop,
            show start.toNat + cs.toNat = (start + cs).toNat from by omega]
        simp only [stitch]
        rw [hTail2, hc, hsplit, List.take_append_drop]
    · refine ⟨[], chunkTextAux_stop hlt, ?_, ?_, ?_, ?_, ?_⟩
      · intro i hi; simp at hi
      · intro i hi; simp at hi
      · simp; omega
      · show stitchTail ov.toNat [] = _
        have : s.drop (start + ov).toNat = [] := by
          rw [List.drop_eq_nil_iff]; omega
        simp [stitchTail, this]
      · show stitch ov.toNat [] = _
        have : s.drop start.toNat = [] := by
          rw [List.drop_eq_nil_iff]; omega
        simp [stitch, this]

/-- The chunking loop invariant instantiated at the `chunk_text` entry point,
with fuel `s.length` (sufficient for one iteration per character). -/
lemma chunk_text_master (s : List Char) (cs ov : Int) (h1 : 0 < ov) (h2 : ov < cs)
    (h3 : cs < (s.length : Int)) :
    ∃ L, chunk_text s.length s cs ov = some L ∧
      (∀ i : Nat, i < L.length →
        L.getD i [] = (s.drop ((i : Int) * (cs - ov)).toNat).take cs.toNat) ∧
      (∀ i : Nat, i < L.length → (i : Int) * (cs - ov) < (s.length : Int)) ∧
      L ≠ [] ∧
      stitch ov.toNat L = s := by
  have h5 : (1 : Int) ≤ cs - ov := by omega
  have h6 : (0 : Int) ≤ (s.length : Int) := by positivity
  have hfuel : (s.length : Int) ≤ 0 + (s.length : Nat) * (cs - ov) := by
    have := mul_le_mul_of_nonneg_left h5 h6
    simpa using this
  obtain ⟨L, hEq, hGet, hPos, hNil, _hTail, hStitch⟩ :=
    chunkTextAux_spec s.length s cs ov 0 h1 h2 le_rfl hfuel
  refine ⟨L, ?_, ?_, ?_, ?_, ?_⟩
  · unfold chunk_text
    rw [if_neg (by omega)]
    exact hEq
  · intro i hi
    have := hGet i hi
    simpa using this
  · intro i hi
    have := hPos i hi
    simpa using this
  · intro h
    have := hNil.mp h
    omega
  · simpa using hStitch

lemma getD_eq_elem (L : List (List Char)) (i : Nat) (h : i < L.length) :
    L.getD i [] = L[i] := by
  simp [List.getD_eq_getElem?_getD, List.getElem?_eq_getElem h]

/-- Non-advancing loop of `chunk_text`: once the text is longer than the
chunk size and `overlap >= chunk_size > 0`, the start offset never increases,
so the loop condition `start < len(text)` holds at every iteration and the
loop never exits, whatever the iteration budget. -/
lemma chunkTextAux_stuck (s : List Char) (cs ov : Int) (h1 : 0 < cs) (h2 : cs ≤ ov)
    (h3 : cs < (s.length : Int)) :
    ∀ (fuel : Nat) (start : Int), start ≤ 0 → chunkTextAux s cs ov fuel start = none := by
  intro fuel
  induction fuel with
  | zero =>
    intro start hs
    exact chunkTextAux_zero (by omega)
  | succ f ih =>
    intro start hs
    rw [chunkTextAux_succ (by omega), ih (start + cs - ov) (by omega)]

/-- C1: with `chunk_size = overlap = 2` and the three-character text `"abc"`,
the chunking loop of `chunk_text` completes within no finite iteration
budget: it does not terminate, and in particular never fails fast with a
configuration error — contradicting the required fail-fast behaviour for
`overlap >= chunk_size`. -/
theorem c1_theorem : ∀ fuel : Nat, chunk_text fuel ("abc".toList) 2 2 = none := by
  intro fuel
  unfold chunk_text
  rw [if_neg (by decide)]
  exact chunkTextAux_stuck ("abc".toList) 2 2 (by decide) (by decide) (by decide) fuel 0 le_rfl

/-- C6: whenever the text has at most `chunk_size` characters, `chunk_text`
returns the one-element list holding the whole text, for any iteration
budget and any overlap. -/
theorem c6_theorem (fuel : Nat) (s : List Char) (cs ov : Int)
    (h : (s.length : Int) ≤ cs) :
    chunk_text fuel s cs ov = some [s] := by
  unfold chunk_text
  rw [if_pos h]

/-- C6 witness: the two-character text `"hi"` with the default chunk size
8000 and overlap 500 yields exactly `["hi"]`. -/
theorem c6_witness :
    ((("hi".toList).length : Int) ≤ 8000) ∧
    chunk_text 0 ("hi".toList) 8000 500 = some [("hi".toList)] :=
  ⟨by decide, c6_theorem 0 ("hi".toList) 8000 500 (by decide)⟩

/-- C2 counterexample: text `"0123456789"` with `chunk_size = 8` and
`overlap = 5` produces the four chunks `"01234567"`, `"3456789"`, `"6789"`,
`"9"`.  The second and third chunks are consecutive and neither one is the
final chunk, yet they do not overlap by exactly 5 characters (the third
chunk is only 4 characters long), refuting the claim as stated. -/
theorem c2_counterexample :
    chunk_text (("0123456789".toList).length) ("0123456789".toList) 8 5 =
      some [("01234567".toList), ("3456789".toList), ("6789".toList), ("9".toList)] ∧
    ¬ overlapsBy ("3456789".toList) ("6789".toList) 5 := by
  constructor
  · decide
  · decide

/-- C2 (amended): for text longer than the chunk size and
`0 < overlap < chunk_size`, stitching the chunk list (dropping the first
`overlap` characters of each non-first chunk and concatenating) reconstructs
the text exactly, and whenever a chunk of full length `chunk_size` has a
successor, the two overlap by exactly `overlap` characters; chunks that are
already truncated by the end of the text may overlap their successor by
fewer characters. -/
theorem c2_theorem (s : List Char) (cs ov : Int) (h1 : 0 < ov) (h2 : ov < cs)
    (h3 : cs < (s.length : Int)) :
    ∃ L, chunk_text s.length s cs ov = some L ∧
      stitch ov.toNat L = s ∧
      ∀ i : Nat, i + 1 < L.length → (L.getD i []).length = cs.toNat →
        overlapsBy (L.getD i []) (L.getD (i + 1) []) ov.toNat := by
  obtain ⟨L, hEq, hGet, hPos, hNe, hStitch⟩ := chunk_text_master s cs ov h1 h2 h3
  refine ⟨L, hEq, hStitch, ?_⟩
  intro i hi hfull
  have hi0 : i < L.length := Nat.lt_of_succ_lt hi
  have hci := hGet i hi0
  have hci1 := hGet (i + 1) hi
  have hmul0 : (0 : Int) ≤ (i : Int) * (cs - ov) :=
    mul_nonneg (by positivity) (by omega)
  have hp1 : ((i + 1 : Nat) : Int) * (cs - ov) = (i : Int) * (cs - ov) + (cs - ov) := by
    push_cast
    ring
  have hq : (((i + 1 : Nat) : Int) * (cs - ov)).toNat =
      ((i : Int) * (cs - ov)).toNat + (cs.toNat - ov.toNat) := by
    rw [hp1]
    omega
  have hin : ((i : Int) * (cs - ov)).toNat + cs.toNat ≤ s.length := by
    rw [hci] at hfull
    simp only [List.length_take, List.length_drop] at hfull
    omega
  refine ⟨?_, ?_, ?_⟩
  · rw [hfull]
    omega
  · rw [hci1]
    simp only [List.length_take, List.length_drop]
    omega
  · rw [hfull, hci, hci1]
    rw [List.drop_take, List.drop_drop, List.take_take]
    rw [show cs.toNat - (cs.toNat - ov.toNat) = ov.toNat from by omega,
      show min ov.toNat cs.toNat = ov.toNat from by omega,
      show ((i : Int) * (cs - ov)).toNat + (cs.toNat - ov.toNat) =
        (((i + 1 : Nat) : Int) * (cs - ov)).toNat from by omega]

/-- C2 witness: the counterexample input also satisfies the amended claim's
hypotheses, instantiating the amended theorem there. -/
theorem c2_witness :
    ((0 : Int) < 5 ∧ (5 : Int) < 8 ∧ (8 : Int) < (("0123456789".toList).length : Int)) ∧
    (∃ L, chunk_text (("0123456789".toList).length) ("0123456789".toList) 8 5 = some L ∧
      stitch (5 : Int).toNat L = "0123456789".toList ∧
      ∀ i : Nat, i + 1 < L.length → (L.getD i []).length = (8 : Int).toNat →
        overlapsBy (L.getD i []) (L.getD (i + 1) []) (5 : Int).toNat) :=
  ⟨⟨by decide, by decide, by decide⟩,
    c2_theorem ("0123456789".toList) 8 5 (by decide) (by decide) (by decide)⟩

/-- C10: for `0 < overlap < chunk_size` the chunker always yields a
non-empty list of chunks, every chunk is a contiguous substring of the text
of length at most `chunk_size`, and the first chunk is exactly the prefix
`text[0:chunk_size]` — so the chunk a prompt embeds is always a prefix of
the extracted document. -/
theorem c10_theorem (s : List Char) (cs ov : Int) (h1 : 0 < ov) (h2 : ov < cs) :
    ∃ L, chunk_text s.length s cs ov = some L ∧ L ≠ [] ∧
      (∀ c ∈ L, c.length ≤ cs.toNat ∧ ∃ t u, t ++ c ++ u = s) ∧
      L.headD [] = s.take cs.toNat := by
  by_cases hle : (s.length : Int) ≤ cs
  · refine ⟨[s], ?_, by simp, ?_, ?_⟩
    · unfold chunk_text
      rw [if_pos hle]
    · intro c hc
      have hcs : c = s := by simpa using hc
      subst hcs
      refine ⟨by omega, [], [], by simp⟩
    · have hs : s.take cs.toNat = s := List.take_of_length_le (by omega)
      simp [hs]
  · push_neg at hle
    obtain ⟨L, hEq, hGet, hPos, hNe, hStitch⟩ := chunk_text_master s cs ov h1 h2 hle
    refine ⟨L, hEq, hNe, ?_, ?_⟩
    · intro c hc
      obtain ⟨i, hi, hEqc⟩ := List.mem_iff_getElem.mp hc
      have hgd : L.getD i [] = c := by
        rw [getD_eq_elem L i hi, hEqc]
      rw [← hgd, hGet i hi]
      constructor
      · simp only [List.length_take, List.length_drop]
        omega
      · refine ⟨s.take (((i : Int) * (cs - ov)).toNat),
          (s.drop (((i : Int) * (cs - ov)).toNat)).drop cs.toNat, ?_⟩
        rw [List.append_assoc, List.take_append_drop, List.take_append_drop]
    · have h0 : 0 < L.length := List.length_pos.mpr hNe
      have hh : L.headD [] = L.getD 0 [] := by
        cases L with
        | nil => simp at hNe
        | cons a t => rfl
      rw [hh, hGet 0 h0]
      simp

/-- C10 witness: the five-character text `"hello"` with chunk size 3 and
overlap 1, instantiating the theorem with its hypotheses discharged. -/
theorem c10_witness :
    ((0 : Int) < 1 ∧ (1 : Int) < 3) ∧
    (∃ L, chunk_text (("hello".toList).length) ("hello".toList) 3 1 = some L ∧ L ≠ [] ∧
      (∀ c ∈ L, c.length ≤ (3 : Int).toNat ∧ ∃ t u, t ++ c ++ u = "hello".toList) ∧
      L.headD [] = ("hello".toList).take (3 : Int).toNat) :=
  ⟨⟨by decide, by decide⟩, c10_theorem ("hello".toList) 3 1 (by decide) (by decide)⟩

/-- C3: extraction yields the `UnreadableFile` error precisely for a file
whose extension is outside the recognized set and whose bytes fail every
attempted decoding (UTF-8, then Latin-1).  The backward direction is the
claim as stated; the forward direction shows no other branch produces this
error.  Since the Latin-1 attempt never fails, both sides are unsatisfiable:
the error is unreachable in the source. -/
theorem c3_theorem (pS dS xS : Bool) (pP dP xP : List (Fin 256) → Option (List Char))
    (content : List (Fin 256)) (filename : List Char) :
    extract_text_from_file pS dS xS pP dP xP content filename =
        Except.error ExtractError.unreadableFile ↔
      (¬ (extOf filename = "pdf".toList ∨ extOf filename = "docx".toList ∨
          extOf filename = "doc".toList ∨ extOf filename = "dxf".toList) ∧
       utf8Decode content = none ∧ latin1DecodeOpt content = none) := by
  simp only [extract_text_from_file]
  by_cases h1 : extOf filename = "pdf".toList
  · rw [if_pos h1]
    by_cases hs : pS = false
    · rw [if_pos hs]
      simp [h1]
    · rw [if_neg hs]
      cases hP : pP content <;> simp [h1]
  · rw [if_neg h1]
    by_cases h2 : extOf filename = "docx".toList ∨ extOf filename = "doc".toList
    · rw [if_pos h2]
      by_cases hs : dS = false
      · rw [if_pos hs]
        rcases h2 with h2 | h2 <;> simp [h2]
      · rw [if_neg hs]
        cases hP : dP content <;> (rcases h2 with h2 | h2 <;> simp [h2])
    · rw [if_neg h2]
      by_cases h3 : extOf filename = "dxf".toList
      · rw [if_pos h3]
        by_cases hs : xS = false
        · rw [if_pos hs]
          simp [h3]
        · rw [if_neg hs]
          cases hP : xP content <;> simp [h3]
      · rw [if_neg h3]
        cases hU : utf8Decode content
        · cases hL : latin1DecodeOpt content
          · simp [h1, h2, h3, hU, hL]
            tauto
          · simp [h1, h2, h3, hU, hL]
        · simp [h1, h2, h3, hU]

/-- C8: for a `.txt` file (any file dispatched to the plain-text branch with
extension `txt`), extraction returns exactly the UTF-8 decoding when the
bytes are valid UTF-8, and exactly the Latin-1 decoding, without error, when
UTF-8 decoding fails. -/
theorem c8_theorem (pS dS xS : Bool) (pP dP xP : List (Fin 256) → Option (List Char))
    (content : List (Fin 256)) (filename : List Char)
    (hext : extOf filename = "txt".toList) :
    (∀ t, utf8Decode content = some t →
      extract_text_from_file pS dS xS pP dP xP content filename = Except.ok t) ∧
    (utf8Decode content = none →
      extract_text_from_file pS dS xS pP dP xP content filename =
        Except.ok (latin1Decode content)) := by
  have h1 : ¬ extOf filename = "pdf".toList := by rw [hext]; decide
  have h2 : ¬ (extOf filename = "docx".toList ∨ extOf filename = "doc".toList) := by
    rw [hext]; decide
  have h3 : ¬ extOf filename = "dxf".toList := by rw [hext]; decide
  constructor
  · intro t ht
    simp only [extract_text_from_file]
    rw [if_neg h1, if_neg h2, if_neg h3, ht]
  · intro ht
    simp only [extract_text_from_file]
    rw [if_neg h1, if_neg h2, if_neg h3, ht]
    rfl

/-- C8 witness: `a.txt` with UTF-8 bytes `[104, 105]` extracts to `"hi"`, and
with the UTF-8-invalid byte `[255]` extracts to its Latin-1 decoding. -/
theorem c8_witness :
    extOf ("a.txt".toList) = "txt".toList ∧
    utf8Decode [104, 105] = some ("hi".toList) ∧
    extract_text_from_file false false false (fun _ => none) (fun _ => none) (fun _ => none)
      [104, 105] ("a.txt".toList) = Except.ok ("hi".toList) ∧
    utf8Decode [255] = none ∧
    extract_text_from_file false false false (fun _ => none) (fun _ => none) (fun _ => none)
      [255] ("a.txt".toList) = Except.ok (latin1Decode [255]) :=
  ⟨by decide, by decide,
    (c8_theorem false false false (fun _ => none) (fun _ => none) (fun _ => none)
      [104, 105] ("a.txt".toList) (by decide)).1 ("hi".toList) (by decide),
    by decide,
    (c8_theorem false false false (fun _ => none) (fun _ => none) (fun _ => none)
      [255] ("a.txt".toList) (by decide)).2 (by decide)⟩

/-- C4 counterexample: on the index.py blocking endpoint, a timeout of the
outbound inference call produces exactly the same generic 500 error as any
other upstream failure, not a distinct 504-style timeout error. -/
theorem c4_counterexample :
    analyze_document_api_call (CallOutcome.raiseTimeout ("timed out".toList)) =
      analyze_document_api_call (CallOutcome.raiseOther ("timed out".toList)) ∧
    analyze_document_api_call (CallOutcome.raiseTimeout ("timed out".toList)) =
      Except.error (500, ("AI service error: timed out".toList)) ∧
    errStatus (analyze_document_api_call (CallOutcome.raiseTimeout ("timed out".toList))) ≠
      some 504 :=
  ⟨rfl, rfl, by decide⟩

/-- C4 (amended): the auth-router blocking endpoint maps a timeout to the
distinct 504 timeout error, different from its generic 500 error for other
upstream failures; the index.py blocking endpoint maps a timeout to the very
same generic 500 error it reports for any other upstream failure. -/
theorem c4_theorem (m mo : List Char) :
    errStatus (analyze_document_call (CallOutcome.raiseTimeout m)) = some 504 ∧
    errStatus (analyze_document_call (CallOutcome.raiseOther mo)) = some 500 ∧
    errStatus (analyze_document_call (CallOutcome.raiseTimeout m)) ≠
      errStatus (analyze_document_call (CallOutcome.raiseOther mo)) ∧
    analyze_document_api_call (CallOutcome.raiseTimeout m) =
      analyze_document_api_call (CallOutcome.raiseOther m) := by
  refine ⟨rfl, rfl, ?_, rfl⟩
  simp [analyze_document_call, errStatus]

/-- C9: with instructions `Summarize`, filename `a.txt` and the single-chunk
document `hello world`, both blocking endpoints assemble a prompt containing
the literal substrings `Summarize`, `a.txt` and `hello world`, in that
relative order. -/
theorem c9_theorem :
    containsInOrder3
      (analyze_document_prompt ("Summarize".toList) ("a.txt".toList) ("hello world".toList))
      ("Summarize".toList) ("a.txt".toList) ("hello world".toList) ∧
    containsInOrder3
      (analyze_document_api_prompt ("Summarize".toList) ("a.txt".toList) ("hello world".toList))
      ("Summarize".toList) ("a.txt".toList) ("hello world".toList) := by
  constructor
  · exact ⟨("You are an expert document analyst. Analyze the following document according to the user's instructions. Be thorough and detailed.\n\nINSTRUCTIONS: ".toList),
      ("\n\nDOCUMENT (".toList), ("):\n---\n".toList),
      ("\n---\n\nProvide your analysis based on the instructions above.".toList), by decide⟩
  · exact ⟨("You are an expert document analyst. Analyze the following document according to the user's instructions.\n\nINSTRUCTIONS: ".toList),
      ("\n\nDOCUMENT (".toList), ("):\n---\n".toList),
      ("\n---\n\nProvide your analysis.".toList), by decide⟩

/-- C7: for the upstream line sequence
`{"response":"a"}`, `{"response":"b"}`, `{"done":true}` the relay emits the
fragment events `a` then `b` in order, followed by the done event and the
end of the sequence; and for every upstream sequence, a line that fails to
parse as JSON is skipped, leaving the rest of the stream unchanged. -/
theorem c7_theorem :
    relay [("\x7b\"response\":\"a\"\x7d".toList), ("\x7b\"response\":\"b\"\x7d".toList),
        ("\x7b\"done\":true\x7d".toList)] =
      [Event.text (JVal.str ("a".toList)), Event.text (JVal.str ("b".toList)), Event.done] ∧
    ∀ (pre post : List (List Char)) (bad : List Char), jsonLineParse bad = none →
      relay (pre ++ bad :: post) = relay (pre ++ post) := by
  constructor
  · decide
  · intro pre post bad h
    have hg : relayLine bad = [] := by
      unfold relayLine
      rw [h]
      by_cases hb : bad.isEmpty <;> simp [hb]
    unfold relay
    rw [List.flatMap_append, List.flatMap_append, List.flatMap_cons, hg]
    simp

/-- C7 witness: a malformed line `oops` inserted after a well-formed line is
skipped, the relayed stream being the same as without it. -/
theorem c7_witness :
    jsonLineParse ("oops".toList) = none ∧
    relay [("\x7b\"response\":\"a\"\x7d".toList), ("oops".toList)] =
      relay [("\x7b\"response\":\"a\"\x7d".toList)] :=
  ⟨by decide, by
    have h := c7_theorem.2 [("\x7b\"response\":\"a\"\x7d".toList)] [] ("oops".toList) (by decide)
    simpa using h⟩

/-- Concrete run of the chunker on a 12001-character text with the handler
parameters `chunk_size = 12000`, `overlap = 500`: two chunks, the 12000
character prefix and the final 501 characters. -/
lemma c5_eval :
    chunk_text ((List.replicate 12001 'a').length) (List.replicate 12001 'a') 12000 500 =
      some [List.replicate 12000 'a', List.replicate 501 'a'] := by
  have hlen : (List.replicate 12001 'a').length = 12001 := List.length_replicate 12001 'a'
  unfold chunk_text
  rw [hlen, if_neg (show ¬ ((12001 : Nat) : Int) ≤ 12000 by decide)]
  rw [show (12001 : Nat) = 12000 + 1 from rfl]
  rw [chunkTextAux_succ (show (0 : Int) < ((List.replicate 12001 'a').length : Int) by
    rw [hlen]; decide)]
  rw [show (0 : Int) + 12000 - 500 = 11500 from by decide]
  rw [show (12000 : Nat) = 11999 + 1 from rfl]
  rw [chunkTextAux_succ (show (11500 : Int) < ((List.replicate 12001 'a').length : Int) by
    rw [hlen]; decide)]
  rw [show (11500 : Int) + 12000 - 500 = 23000 from by decide]
  rw [chunkTextAux_stop (show ¬ (23000 : Int) < ((List.replicate 12001 'a').length : Int) by
    rw [hlen]; decide)]
  rw [pySlice_eq (List.replicate 12001 'a') 0 (0 + 12000) (by decide) (by decide)]
  rw [pySlice_eq (List.replicate 12001 'a') 11500 (11500 + 12000) (by decide) (by decide)]
  rw [show ((0 : Int) + 12000).toNat - (0 : Int).toNat = 12000 from by decide]
  rw [show ((11500 : Int) + 12000).toNat - (11500 : Int).toNat = 12000 from by decide]
  rw [show ((0 : Int)).toNat = 0 from rfl, show ((11500 : Int)).toNat = 11500 from rfl]
  rw [List.drop_replicate, List.drop_replicate, List.take_replicate, List.take_replicate]
  rw [show (12001 : Nat) - 0 = 12001 from rfl, show (12001 : Nat) - 11500 = 501 from rfl]
  rw [show min 12000 12001 = 12000 from by decide, show min 12000 501 = 501 from by decide]

/-- For `0 < overlap < chunk_size` the chunker produces exactly one chunk
precisely when the text fits into one chunk. -/
lemma chunk_text_len_one (s : List Char) (cs ov : Int) (h1 : 0 < ov) (h2 : ov < cs) :
    (((chunk_text s.length s cs ov).getD []).length = 1) ↔ (s.length : Int) ≤ cs := by
  by_cases hle : (s.length : Int) ≤ cs
  · simp [chunk_text, if_pos hle, hle]
  · push_neg at hle
    obtain ⟨L, hEq, hGet, hPos, hNe, hStitch⟩ :=
      chunk_text_master s cs ov h1 h2 hle
    rw [hEq]
    simp only [Option.getD_some]
    constructor
    · intro hlen1
      exfalso
      obtain ⟨c, hc⟩ := List.length_eq_one.mp hlen1
      have hst : stitch ov.toNat L = c := by
        rw [hc]
        simp [stitch, stitchTail]
      have hcc : c = s := by rw [← hst, hStitch]
      have hg0 := hGet 0 (by rw [hc]; simp)
      rw [hc] at hg0
      simp only [List.getD_cons_zero] at hg0
      have hlc : c.length ≤ cs.toNat := by
        rw [hg0]
        simp only [List.length_take, List.length_drop]
        omega
      rw [hcc] at hlc
      omega
    · intro h
      omega

/-- C5 (amended): on the blocking `/auth/analyze` endpoint the template is
selected by the chunk count — more than one chunk occurs exactly when the
extracted text exceeds 12000 characters, and then the multi-chunk variant
(naming the part count and embedding chunk 1) is assembled, the single-chunk
variant otherwise; the streaming endpoint always assembles the single-chunk
variant over chunk 1, regardless of the chunk count. -/
theorem c5_theorem (instructions filename text : List Char) :
    ((((chunk_text text.length text 12000 500).getD []).length = 1 ↔
        (text.length : Int) ≤ 12000) ∧
     (((chunk_text text.length text 12000 500).getD []).length = 1 →
        analyze_document_prompt instructions filename text =
          singlePrompt instructions filename
            (((chunk_text text.length text 12000 500).getD []).getD 0 [])) ∧
     (((chunk_text text.length text 12000 500).getD []).length ≠ 1 →
        analyze_document_prompt instructions filename text =
          multiPrompt instructions filename
            (((chunk_text text.length text 12000 500).getD []).length)
            (((chunk_text text.length text 12000 500).getD []).getD 0 [])) ∧
     (analyze_document_stream_prompt instructions filename text =
        singlePrompt instructions filename
          (((chunk_text text.length text 12000 500).getD []).getD 0 []))) := by
  refine ⟨chunk_text_len_one text 12000 500 (by decide) (by decide), ?_, ?_, rfl⟩
  · intro h
    simp only [analyze_document_prompt]
    rw [if_pos h]
  · intro h
    simp only [analyze_document_prompt]
    rw [if_neg h]

/-- C5 counterexample: a streaming analysis request on a 12001-character
document produces two chunks, yet its prompt is the single-chunk template
over chunk 1 and differs from the multi-chunk template the claim predicts
for two chunks — so template selection by chunk count does not hold for
every analysis request. -/
theorem c5_counterexample :
    (((chunk_text ((List.replicate 12001 'a').length) (List.replicate 12001 'a') 12000 500).getD
        []).length = 2) ∧
    analyze_document_stream_prompt ("Summarize".toList) ("a.txt".toList)
        (List.replicate 12001 'a') =
      singlePrompt ("Summarize".toList) ("a.txt".toList) (List.replicate 12000 'a') ∧
    singlePrompt ("Summarize".toList) ("a.txt".toList) (List.replicate 12000 'a') ≠
      multiPrompt ("Summarize".toList) ("a.txt".toList) 2 (List.replicate 12000 'a') := by
  refine ⟨?_, ?_, ?_⟩
  · rw [c5_eval]
    rfl
  · simp only [analyze_document_stream_prompt]
    rw [c5_eval]
    rfl
  · intro hEqSM
    have h40 := congrArg (List.take 40) hEqSM
    simp only [singlePrompt, multiPrompt, List.append_assoc] at h40
    rw [List.take_append_of_le_length (by decide),
      List.take_append_of_le_length (by decide)] at h40
    exact absurd h40 (by decide)

/-- C5 witness: on the blocking endpoint the same 12001-character document
satisfies the more-than-one-chunk hypothesis and is assembled with the
multi-chunk template naming 2 parts and embedding the 12000-character first
chunk. -/
theorem c5_witness :
    (((chunk_text ((List.replicate 12001 'a').length) (List.replicate 12001 'a') 12000 500).getD
        []).length ≠ 1) ∧
    analyze_document_prompt ("Summarize".toList) ("a.txt".toList) (List.replicate 12001 'a') =
      multiPrompt ("Summarize".toList) ("a.txt".toList) 2 (List.replicate 12000 'a') := by
  have hlen : ((chunk_text ((List.replicate 12001 'a').length) (List.replicate 12001 'a')
      12000 500).getD []).length = 2 := by
    rw [c5_eval]
    rfl
  constructor
  · rw [hlen]
    decide
  · have h := (c5_theorem ("Summarize".toList) ("a.txt".toList)
      (List.replicate 12001 'a')).2.2.1 (by rw [hlen]; decide)
    rw [hlen, c5_eval] at h
    simp only [Option.getD_some, List.getD_cons_zero] at h
    exact h

end DocuMind
